import Mathlib

/-!
Verification of the resource-pool (proxy rotation), timing-policy, scheduler and
credential-store logic of the RedditAccountManager repository.

The Python modules `src/proxy_manager.py`, `src/engagement_scheduler.py` and
`src/account_manager.py` are shallowly embedded below.  The SQLite tables
`proxies`, `accounts` and `activity_log` are modelled as Lean lists ordered by
rowid (inserts append at the end, exactly as SQLite assigns increasing rowids
when rows are never deleted — this program never deletes rows).  SQL `UPDATE`
statements become `List.map` over the table with the `WHERE` clause as the
branch condition; `NULL`-able columns become `Option` values, and SQL's
three-valued `=` (where `NULL = x` is never true) is modelled explicitly at the
single place it matters (`load_proxies`' duplicate check).  Python exceptions
are modelled with `Except String`; external collaborators (the Fernet cipher,
the Reddit client, the random source, the wall clock) enter as explicit
parameters, so every definition is executable.
-/

/-- A row of the `proxies` table (see `_init_database` in
`src/account_manager.py`).  `ip`, `username`, `password_encrypted` and
`last_used` are nullable columns. -/
structure Proxy where
  id : Nat
  ip : Option String
  port : Int
  username : Option String
  password_encrypted : Option String
  protocol : String
  last_used : Option String
  status : String
  failure_count : Nat
  deriving DecidableEq, Repr

/-- A row of the `accounts` table (see `_init_database` in
`src/account_manager.py`).  Columns irrelevant to every claim
(`user_agent`, `session_data`, `metadata`) are carried as plain data. -/
structure Account where
  id : Nat
  username : String
  password_encrypted : String
  email : String
  creation_date : String
  last_login : Option String
  proxy_id : Option Nat
  user_agent : String
  account_status : String
  karma_post : Int
  karma_comment : Int
  last_post_date : Option String
  last_comment_date : Option String
  total_posts : Nat
  total_comments : Nat
  deriving DecidableEq, Repr

/-- A row of the append-only `activity_log` table. -/
structure ActivityRecord where
  account_id : Nat
  activity_type : String
  activity_date : String
  subreddit : String
  post_id : Option String
  comment_id : Option String
  status : String
  details : Option String
  deriving DecidableEq, Repr

/-- The persisted database state: the three tables of the SQLite schema. -/
structure DBState where
  accounts : List Account
  proxies : List Proxy
  activity_log : List ActivityRecord
  deriving DecidableEq, Repr

/-- The Fernet cipher suite (external `cryptography` library).  `enc` never
fails; `dec` may raise `InvalidToken` on a corrupt token, which the Python
callers do not catch, so it is `Except`-valued. -/
structure Cipher where
  enc : String → String
  dec : String → Except String String

namespace ProxyManager

/-- Byte-wise lexicographic comparison of strings as Python compares the
`last_used` ISO timestamp strings in `get_next_proxy`'s sort key. -/
def charListLe : List Char → List Char → Bool
  | [], _ => true
  | _ :: _, [] => false
  | a :: as, b :: bs =>
    if a.toNat < b.toNat then true
    else if b.toNat < a.toNat then false
    else charListLe as bs

/-- The sort key of `get_next_proxy` (line 126 of `src/proxy_manager.py`):
`p['last_used'] if p['last_used'] else '1970-01-01'`. -/
def sortKey (p : Proxy) : List Char :=
  (p.last_used.getD "1970-01-01").data

/-- The comparison relation used to sort available proxies: ascending
`last_used`, i.e. oldest first. -/
def proxyLe (p q : Proxy) : Prop :=
  charListLe (sortKey p) (sortKey q) = true

instance : DecidableRel proxyLe := fun p q => by
  unfold proxyLe; infer_instance

/-- The availability filter of `get_available_proxies`
(`WHERE status = 'active' AND failure_count < 5`).

The source additionally materialises the decrypted auth secret into each
returned record; the decryption neither affects which rows are selected nor
mutates any stored state, so it is not replayed here. -/
def get_available_proxies (ps : List Proxy) : List Proxy :=
  ps.filter (fun p => p.status = "active" && p.failure_count < 5)

/-- `UPDATE proxies SET last_used = ? WHERE id = ?`. -/
def stamp_last_used (ps : List Proxy) (pid : Nat) (now : String) : List Proxy :=
  ps.map (fun q => if q.id = pid then { q with last_used := some now } else q)

/-- `get_next_proxy` (lines 117–141 of `src/proxy_manager.py`): filter the
available proxies, stably sort them by `last_used` treating `NULL` as the
epoch string, take the first, stamp its `last_used` to now, and return it.
`none` models Python's `return None` when no proxy is available.  The Python
`list.sort` is a stable ascending sort, modelled by insertion sort (which is
stable for the ties-allowed relation `proxyLe`). -/
def get_next_proxy (s : DBState) (now : String) : Option Proxy × DBState :=
  match List.insertionSort proxyLe (get_available_proxies s.proxies) with
  | [] => (none, s)
  | p :: _ => (some p, { s with proxies := stamp_last_used s.proxies p.id now })

/-- The per-row transform of `_increment_failure_count`
(lines 186–199 of `src/proxy_manager.py`).  Both `SET` clauses read the old
`failure_count`, as SQL `UPDATE` does:
`failure_count = failure_count + 1`,
`status = CASE WHEN failure_count + 1 >= 5 THEN 'inactive' ELSE status END`. -/
def incrementRow (p : Proxy) : Proxy :=
  { p with
    failure_count := p.failure_count + 1,
    status := if 5 ≤ p.failure_count + 1 then "inactive" else p.status }

/-- `_increment_failure_count`: the `UPDATE ... WHERE id = ?` over the table. -/
def increment_failure_count (ps : List Proxy) (pid : Nat) : List Proxy :=
  ps.map (fun p => if p.id = pid then incrementRow p else p)

/-- `reset_failure_count` (lines 201–214): reset counter and reactivate. -/
def reset_failure_count (ps : List Proxy) (pid : Nat) : List Proxy :=
  ps.map (fun p => if p.id = pid then { p with failure_count := 0, status := "active" } else p)

/-- A CSV record as produced by `csv.DictReader` in `load_proxies`: each field
is `some value` when the column is present and `none` when `row.get(...)`
yields its default. -/
structure ProxyRow where
  ip : Option String
  port : Option String
  username : Option String
  password : Option String
  protocol : Option String
  deriving DecidableEq, Repr

/-- Digit-string accumulator for `parseIntStr`. -/
def parseDigitsAux : List Char → Nat → Option Nat
  | [], acc => some acc
  | ch :: rest, acc =>
    if ch.isDigit then parseDigitsAux rest (acc * 10 + (ch.toNat - 48)) else none

/-- Python's `int(...)` on a string: an optional minus sign followed by
digits; any other shape raises `ValueError`, modelled as `none`. -/
def parseIntStr (st : String) : Option Int :=
  match st.data with
  | [] => none
  | ch :: rest =>
    if ch = '-' then
      match rest with
      | [] => none
      | _ => (parseDigitsAux rest 0).map (fun n => -(n : Int))
    else (parseDigitsAux (ch :: rest) 0).map (fun n => (n : Int))

/-- `int(row.get('port', 0))`: a missing `port` column defaults to `0`; a
present column is parsed and raises (`none`) when non-numeric. -/
def parsePort : Option String → Option Int
  | none => some 0
  | some st => parseIntStr st

/-- SQLite `AUTOINCREMENT`: one more than the largest id ever used (no row is
ever deleted in this program, so the maximum of the current ids suffices). -/
def nextProxyId (ps : List Proxy) : Nat :=
  (ps.map (fun p => p.id)).foldr max 0 + 1

/-- The duplicate check `SELECT id FROM proxies WHERE ip = ? AND port = ?`
with SQL three-valued equality: a `NULL` on either side never matches. -/
def proxyExists (ps : List Proxy) (ipOpt : Option String) (port : Int) : Bool :=
  ps.any (fun p =>
    match ipOpt, p.ip with
    | some v, some w => v == w && p.port == port
    | _, _ => false)

/-- The row built by the `INSERT INTO proxies ...` of `load_proxies`: status
`active`, `failure_count` defaulting to 0, `last_used` NULL, protocol
defaulting to `http`, password encrypted only when present and non-empty
(Python truthiness). -/
def newProxyRow (enc : String → String) (ps : List Proxy) (r : ProxyRow)
    (port : Int) : Proxy :=
  { id := nextProxyId ps, ip := r.ip, port := port, username := r.username,
    password_encrypted :=
      (match r.password with
       | some pw => if pw = "" then none else some (enc pw)
       | none => none),
    protocol := r.protocol.getD "http", last_used := none,
    status := "active", failure_count := 0 }

/-- The `INSERT INTO proxies ...` of `load_proxies` appends the new row. -/
def insertProxy (enc : String → String) (ps : List Proxy) (r : ProxyRow)
    (port : Int) : List Proxy :=
  ps ++ [newProxyRow enc ps r port]

/-- The record loop of `load_proxies` (lines 36–64 of
`src/proxy_manager.py`): for each row, parse the port (raising on a
malformed value — `none` aborts the whole loop), skip the row when an
identical ip+port already exists (inserts of earlier rows of the same batch
are visible to the check, since they share the connection), otherwise
insert. -/
def load_proxies_aux (enc : String → String) :
    List Proxy → List ProxyRow → Option (List Proxy)
  | ps, [] => some ps
  | ps, r :: rest =>
    match parsePort r.port with
    | none => none
    | some port =>
      if proxyExists ps r.ip port then load_proxies_aux enc ps rest
      else load_proxies_aux enc (insertProxy enc ps r port) rest

/-- `load_proxies` (lines 30–72 of `src/proxy_manager.py`).  The single
`try/except` around the whole loop calls `conn.rollback()` on any exception,
so a failing record discards every insert of the call and leaves the stored
table exactly as it was; `conn.commit()` runs only when every record
succeeded. -/
def load_proxies (enc : String → String) (ps : List Proxy)
    (rows : List ProxyRow) : List Proxy :=
  (load_proxies_aux enc ps rows).getD ps

end ProxyManager

namespace AccountManager

/-- `AccountManager._encrypt`: delegate to the cipher suite. -/
def encrypt (c : Cipher) (text : String) : String :=
  c.enc text

/-- `AccountManager._decrypt`: delegate to the cipher suite; raises
`InvalidToken` (modelled as `Except.error`) on a corrupt token. -/
def decrypt (c : Cipher) (encrypted_text : String) : Except String String :=
  c.dec encrypted_text

/-- SQLite `AUTOINCREMENT` for the `accounts` table. -/
def nextAccountId (accounts : List Account) : Nat :=
  (accounts.map (fun a => a.id)).foldr max 0 + 1

/-- The account row inserted by `_save_account`: encrypted password,
`creation_date` and `last_login` set to now, status `active`, all counters at
their schema defaults. -/
def newAccount (c : Cipher) (accounts : List Account)
    (username password email now : String) (proxyId : Nat)
    (userAgent : String) : Account :=
  { id := nextAccountId accounts, username := username,
    password_encrypted := encrypt c password, email := email,
    creation_date := now, last_login := some now, proxy_id := some proxyId,
    user_agent := userAgent, account_status := "active",
    karma_post := 0, karma_comment := 0, last_post_date := none,
    last_comment_date := none, total_posts := 0, total_comments := 0 }

/-- `_save_account` (lines 227–246 of `src/account_manager.py`): insert the
new account row. -/
def save_account (c : Cipher) (s : DBState) (username password email now : String)
    (proxyId : Nat) (userAgent : String) : DBState :=
  { s with accounts := s.accounts ++
      [newAccount c s.accounts username password email now proxyId userAgent] }

/-- One exported account record: every column of the export query of
`export_accounts` plus the decrypted password, with `id` dropped. -/
structure ExportRecord where
  username : String
  email : String
  creation_date : String
  last_login : Option String
  proxy_id : Option Nat
  account_status : String
  karma_post : Int
  karma_comment : Int
  last_post_date : Option String
  last_comment_date : Option String
  total_posts : Nat
  total_comments : Nat
  password : String
  deriving DecidableEq, Repr

/-- The export row built from a stored account and its decrypted password. -/
def exportRow (a : Account) (pw : String) : ExportRecord :=
  { username := a.username, email := a.email, creation_date := a.creation_date,
    last_login := a.last_login, proxy_id := a.proxy_id,
    account_status := a.account_status, karma_post := a.karma_post,
    karma_comment := a.karma_comment, last_post_date := a.last_post_date,
    last_comment_date := a.last_comment_date, total_posts := a.total_posts,
    total_comments := a.total_comments, password := pw }

/-- The row loop of `export_accounts`: decrypt each stored password in table
order, aborting on the first decryption failure (the exception raised by the
dict comprehension over `SELECT id, password_encrypted FROM accounts`). -/
def exportLoop (c : Cipher) : List Account → Except String (List ExportRecord)
  | [] => Except.ok []
  | a :: rest =>
    match decrypt c a.password_encrypted with
    | Except.error e => Except.error e
    | Except.ok pw => (exportLoop c rest).map (fun rs => exportRow a pw :: rs)

/-- `export_accounts` (lines 263–296 of `src/account_manager.py`): dump every
account record with its password decrypted via the same cipher suite. -/
def export_accounts (c : Cipher) (s : DBState) : Except String (List ExportRecord) :=
  exportLoop c s.accounts

/-- The account dict returned by `get_account_details`: all columns, with
`password_encrypted` replaced by the decrypted `password`. -/
structure AccountDetails where
  id : Nat
  username : String
  email : String
  creation_date : String
  last_login : Option String
  proxy_id : Option Nat
  user_agent : String
  account_status : String
  karma_post : Int
  karma_comment : Int
  last_post_date : Option String
  last_comment_date : Option String
  total_posts : Nat
  total_comments : Nat
  password : String
  deriving DecidableEq, Repr

/-- `get_account_details` (lines 322–347 of `src/account_manager.py`):
`SELECT * FROM accounts WHERE username = ?` — the lookup filters on the
username only, **not** on `account_status` — then decrypt the password
(which may raise) and return the dict; `none` when no row matches. -/
def get_account_details (c : Cipher) (s : DBState) (username : String) :
    Except String (Option AccountDetails) :=
  match s.accounts.find? (fun a => a.username = username) with
  | none => Except.ok none
  | some a =>
    (decrypt c a.password_encrypted).map (fun pw =>
      some { id := a.id, username := a.username, email := a.email,
             creation_date := a.creation_date, last_login := a.last_login,
             proxy_id := a.proxy_id, user_agent := a.user_agent,
             account_status := a.account_status, karma_post := a.karma_post,
             karma_comment := a.karma_comment, last_post_date := a.last_post_date,
             last_comment_date := a.last_comment_date, total_posts := a.total_posts,
             total_comments := a.total_comments, password := pw })

end AccountManager

namespace EngagementScheduler

/-- The engagement section of the configuration
(`post_frequency`, `comment_frequency`, `activity_hours` in
`src/config.py`). -/
structure EngageConfig where
  post_min_hours : ℚ
  post_max_hours : ℚ
  post_variance_percent : ℚ
  comment_min_hours : ℚ
  comment_max_hours : ℚ
  comment_variance_percent : ℚ
  activity_start : Nat
  activity_end : Nat
  deriving DecidableEq, Repr

/-- The jittered next-interval formula shared by `_create_post_job`
(lines 157–170) and `_create_comment_job` (lines 232–245) of
`src/engagement_scheduler.py`:

`variance = variance_percent / 100`,
`variance_hours = base_hours * variance * random.choice([-1, 1])`,
`next_hours = max(min_hours, base_hours + variance_hours)`,

where `base_hours = random.uniform(min_hours, max_hours)` and the random
draws enter as the explicit parameters `base` and `sign`. -/
def jittered_next_hours (minHours variancePercent base sign : ℚ) : ℚ :=
  max minHours (base + base * (variancePercent / 100) * sign)

/-- The next-post interval computed at the end of `_create_post_job`. -/
def post_next_hours (cfg : EngageConfig) (base sign : ℚ) : ℚ :=
  jittered_next_hours cfg.post_min_hours cfg.post_variance_percent base sign

/-- The next-comment interval computed at the end of `_create_comment_job`. -/
def comment_next_hours (cfg : EngageConfig) (base sign : ℚ) : ℚ :=
  jittered_next_hours cfg.comment_min_hours cfg.comment_variance_percent base sign

/-- `_is_within_activity_hours` (lines 247–255 of
`src/engagement_scheduler.py`): `start_hour <= current_hour <= end_hour`. -/
def is_within_activity_hours (cfg : EngageConfig) (hour : Nat) : Bool :=
  decide (cfg.activity_start ≤ hour) && decide (hour ≤ cfg.activity_end)

/-- `_log_activity` (lines 257–273 of `src/engagement_scheduler.py`): append
one row to `activity_log`. -/
def log_activity (s : DBState) (accountId : Nat) (activityType subreddit : String)
    (postId commentId : Option String) (status now : String) : DBState :=
  { s with activity_log := s.activity_log ++
      [{ account_id := accountId, activity_type := activityType,
         activity_date := now, subreddit := subreddit, post_id := postId,
         comment_id := commentId, status := status, details := none }] }

/-- `UPDATE accounts SET last_post_date = ?, total_posts = total_posts + 1
WHERE id = ?` executed after a successful submission. -/
def record_post_success (s : DBState) (accountId : Nat) (now : String) : DBState :=
  { s with accounts := s.accounts.map (fun a =>
      if a.id = accountId then
        { a with last_post_date := some now, total_posts := a.total_posts + 1 }
      else a) }

/-- The value a firing `_create_post_job` hands back to the `schedule`
library.  Each constructor corresponds to one `return` statement of the
source: `schedule.CancelJob` when the account row is gone, the three bare
`return`s (outside activity hours / no proxy / login failed, all `None` in
Python, distinguished here by their distinct exit points), and the computed
`next_post_hours`. -/
inductive JobReturn where
  | cancelJob : JobReturn
  | skippedOutsideHours : JobReturn
  | noProxy : JobReturn
  | loginFailed : JobReturn
  | nextHours (h : ℚ) : JobReturn
  deriving DecidableEq, Repr

/-- `_create_post_job` (lines 103–170 of `src/engagement_scheduler.py`).

Control flow, in source order:
1. `get_account_details(username)` — `None` ⇒ `return schedule.CancelJob`; a
   decryption failure inside it propagates (there is no `try` in this
   function).
2. `_is_within_activity_hours()` — outside ⇒ bare `return` (job stays
   scheduled, state untouched).
3. `get_next_proxy()` — `None` ⇒ bare `return`.
4. `reddit_client.login(...)` — the client catches its own exceptions and
   returns a success flag, passed in as `loginOk`.
5. `submit_post` — returns the new post id or `None`, passed in as `postId`;
   on success the activity is logged with status `success` and the account
   counters are updated.
6. The next interval is computed from the random draws `base` and `sign` and
   returned.

The wall-clock hour and timestamp enter as `hour` and `now`. -/
def create_post_job (c : Cipher) (cfg : EngageConfig) (s : DBState)
    (accountId : Nat) (username : String) (hour : Nat) (now : String)
    (loginOk : Bool) (postId : Option String) (subreddit : String)
    (base sign : ℚ) : Except String (JobReturn × DBState) :=
  match AccountManager.get_account_details c s username with
  | Except.error e => Except.error e
  | Except.ok none => Except.ok (JobReturn.cancelJob, s)
  | Except.ok (some _) =>
    if ¬ is_within_activity_hours cfg hour then
      Except.ok (JobReturn.skippedOutsideHours, s)
    else
      match ProxyManager.get_next_proxy s now with
      | (none, s1) => Except.ok (JobReturn.noProxy, s1)
      | (some _, s1) =>
        if ¬ loginOk then Except.ok (JobReturn.loginFailed, s1)
        else
          let s2 :=
            match postId with
            | none => s1
            | some pid =>
              record_post_success
                (log_activity s1 accountId "post" subreddit (some pid) none "success" now)
                accountId now
          Except.ok (JobReturn.nextHours (post_next_hours cfg base sign), s2)

/-- The deferred run-loop step: `schedule.run_pending()` runs each due job in
order on the single scheduler thread.  The `schedule` library does not catch
exceptions raised by a job, so an `Except.error` aborts the sweep before the
remaining jobs run, exactly as an uncaught exception propagates out of
`run_pending` into `run_engagement`'s `while True` loop. -/
def run_pending (jobs : List (DBState → Except String (JobReturn × DBState)))
    (s : DBState) : Except String DBState :=
  match jobs with
  | [] => Except.ok s
  | j :: rest =>
    match j s with
    | Except.error e => Except.error e
    | Except.ok (_, s1) => run_pending rest s1

end EngagementScheduler

open ProxyManager EngagementScheduler AccountManager

/-- Proxy with the epoch as `last_used` (the claim's P1). -/
def pEpoch : Proxy :=
  { id := 1, ip := some "1.1.1.1", port := 8080, username := none,
    password_encrypted := none, protocol := "http",
    last_used := some "1970-01-01T00:00:00", status := "active", failure_count := 0 }

/-- Proxy last used recently (the claim's P2). -/
def pNow : Proxy :=
  { id := 2, ip := some "2.2.2.2", port := 8081, username := none,
    password_encrypted := none, protocol := "http",
    last_used := some "2025-06-01T12:00:00", status := "active", failure_count := 0 }

/-- A pool holding exactly P1 and P2. -/
def poolP1P2 : DBState :=
  { accounts := [], proxies := [pEpoch, pNow], activity_log := [] }

/-- A fresh active proxy, used to witness C2. -/
def pFresh : Proxy :=
  { id := 7, ip := some "3.3.3.3", port := 3128, username := none,
    password_encrypted := none, protocol := "http",
    last_used := none, status := "active", failure_count := 0 }

/-- The default engagement configuration shipped in `src/config.py`
(post 12–48 h at 20 % variance, comments 4–24 h at 30 % variance, activity
hours 8–23). -/
def defaultEngageConfig : EngageConfig :=
  { post_min_hours := 12, post_max_hours := 48, post_variance_percent := 20,
    comment_min_hours := 4, comment_max_hours := 24, comment_variance_percent := 30,
    activity_start := 8, activity_end := 23 }

/-- A cipher whose decryption always succeeds (a well-behaved key/token
pair), used to drive concrete job executions. -/
def cipherId : Cipher :=
  { enc := fun t => t, dec := fun t => Except.ok t }

/-- A stored account whose status is `suspended` (it exists but is not
active). -/
def acctSuspended : Account :=
  { id := 1, username := "alice", password_encrypted := "tok1",
    email := "alice@example.com", creation_date := "2024-01-01T00:00:00",
    last_login := none, proxy_id := none, user_agent := "ua",
    account_status := "suspended", karma_post := 0, karma_comment := 0,
    last_post_date := none, last_comment_date := none,
    total_posts := 0, total_comments := 0 }

/-- A database holding the suspended account and one healthy proxy. -/
def pool4 : DBState :=
  { accounts := [acctSuspended], proxies := [pFresh], activity_log := [] }

/-- The account dict `get_account_details` returns for `alice` in `pool4`. -/
def aliceDetails : AccountDetails :=
  { id := 1, username := "alice", email := "alice@example.com",
    creation_date := "2024-01-01T00:00:00", last_login := none,
    proxy_id := none, user_agent := "ua", account_status := "suspended",
    karma_post := 0, karma_comment := 0, last_post_date := none,
    last_comment_date := none, total_posts := 0, total_comments := 0,
    password := "tok1" }

/-- A cipher whose decryption raises `InvalidToken` on every token (e.g. the
stored token was produced under a different key, or is corrupt). -/
def cipherFail : Cipher :=
  { enc := fun t => t, dec := fun _ => Except.error "InvalidToken" }

/-- A stored active account. -/
def acctActive : Account :=
  { id := 2, username := "bob", password_encrypted := "tok2",
    email := "bob@example.com", creation_date := "2024-01-01T00:00:00",
    last_login := none, proxy_id := none, user_agent := "ua",
    account_status := "active", karma_post := 0, karma_comment := 0,
    last_post_date := none, last_comment_date := none,
    total_posts := 0, total_comments := 0 }

/-- A database holding the active account and one healthy proxy. -/
def pool8 : DBState :=
  { accounts := [acctActive], proxies := [pFresh], activity_log := [] }

/-- A concrete invertible cipher: encryption reverses the character list,
decryption reverses it back. -/
def cipherRev : Cipher :=
  { enc := fun t => { data := t.data.reverse },
    dec := fun t => Except.ok { data := t.data.reverse } }

/-- The empty database. -/
def emptyDB : DBState :=
  { accounts := [], proxies := [], activity_log := [] }

/-- A well-formed proxy record. -/
def rowGood : ProxyManager.ProxyRow :=
  { ip := some "10.0.0.1", port := some "8080", username := none,
    password := none, protocol := none }

/-- A malformed proxy record: its port is not numeric, so Python's
`int(row.get('port', 0))` raises `ValueError`. -/
def rowBad : ProxyManager.ProxyRow :=
  { ip := some "10.0.0.2", port := some "eighty", username := none,
    password := none, protocol := none }

/-!
Supporting lemmas about the embedded operations.
-/

namespace ProxyManager

theorem charListLe_total (a b : List Char) :
    charListLe a b = true ∨ charListLe b a = true := by
  induction a generalizing b with
  | nil => left; rfl
  | cons x xs ih =>
    cases b with
    | nil => right; rfl
    | cons y ys =>
      by_cases hxy : x.toNat < y.toNat
      · left; simp [charListLe, hxy]
      · by_cases hyx : y.toNat < x.toNat
        · right; simp [charListLe, hyx]
        · rcases ih ys with h | h
          · left; simp [charListLe, hxy, hyx, h]
          · right; simp [charListLe, hxy, hyx, h]

theorem charListLe_trans {a b c : List Char}
    (hab : charListLe a b = true) (hbc : charListLe b c = true) :
    charListLe a c = true := by
  induction a generalizing b c with
  | nil => rfl
  | cons x xs ih =>
    cases b with
    | nil => simp [charListLe] at hab
    | cons y ys =>
      cases c with
      | nil => simp [charListLe] at hbc
      | cons z zs =>
        simp only [charListLe] at hab hbc ⊢
        by_cases hxy : x.toNat < y.toNat
        · by_cases hyz : y.toNat < z.toNat
          · have hxz : x.toNat < z.toNat := Nat.lt_trans hxy hyz
            simp [hxz]
          · by_cases hzy : z.toNat < y.toNat
            · simp [hyz, hzy] at hbc
            · have hyz' : y.toNat = z.toNat := Nat.le_antisymm (Nat.le_of_not_lt hzy) (Nat.le_of_not_lt hyz)
              have hxz : x.toNat < z.toNat := hyz' ▸ hxy
              simp [hxz]
        · by_cases hyx : y.toNat < x.toNat
          · simp [hxy, hyx] at hab
          · have hxy' : x.toNat = y.toNat := Nat.le_antisymm (Nat.le_of_not_lt hyx) (Nat.le_of_not_lt hxy)
            by_cases hyz : y.toNat < z.toNat
            · have hxz : x.toNat < z.toNat := hxy' ▸ hyz
              simp [hxz]
            · by_cases hzy : z.toNat < y.toNat
              · simp [hyz, hzy] at hbc
              · have hyz' : y.toNat = z.toNat := Nat.le_antisymm (Nat.le_of_not_lt hzy) (Nat.le_of_not_lt hyz)
                have hxz : ¬ x.toNat < z.toNat := by omega
                have hzx : ¬ z.toNat < x.toNat := by omega
                simp only [hxz, hzy, if_false, hzx] at hab hbc ⊢
                simp only [hxy', hyz', if_false, lt_irrefl] at hab hbc ⊢
                exact ih hab hbc

instance : IsTotal Proxy proxyLe :=
  ⟨fun p q => charListLe_total (sortKey p) (sortKey q)⟩

instance : IsTrans Proxy proxyLe :=
  ⟨fun _ _ _ h h2 => charListLe_trans h h2⟩

theorem charListLe_refl (a : List Char) : charListLe a a = true := by
  induction a with
  | nil => rfl
  | cons x xs ih => simp [charListLe, ih]

theorem proxyLe_refl (p : Proxy) : proxyLe p p :=
  charListLe_refl (sortKey p)

theorem mem_get_available {ps : List Proxy} {p : Proxy} :
    p ∈ get_available_proxies ps ↔
      p ∈ ps ∧ p.status = "active" ∧ p.failure_count < 5 := by
  simp [get_available_proxies, List.mem_filter, and_assoc]

/-- The head of the sorted available list is a member and is `proxyLe`-minimal. -/
theorem sort_head_min (l : List Proxy) (p : Proxy) (t : List Proxy)
    (h : List.insertionSort proxyLe l = p :: t) :
    p ∈ l ∧ ∀ q ∈ l, proxyLe p q := by
  have hperm := List.perm_insertionSort proxyLe l
  have hsorted := List.sorted_insertionSort proxyLe l
  rw [h] at hperm hsorted
  refine ⟨hperm.mem_iff.mp (List.mem_cons_self p t), ?_⟩
  intro q hq
  rcases List.mem_cons.mp (hperm.mem_iff.mpr hq) with rfl | hq2
  · exact proxyLe_refl q
  · exact List.rel_of_sorted_cons hsorted q hq2

/-- `UPDATE ... WHERE id = ?` on a one-row table whose row matches. -/
theorem increment_single (r : Proxy) (pid : Nat) (h : r.id = pid) :
    increment_failure_count [r] pid = [incrementRow r] := by
  simp [increment_failure_count, h]

/-- Five applications of the row transform starting from a fresh active row
land on failure count 5 and status `inactive`. -/
theorem incrementRow_five (p : Proxy) (hfc : p.failure_count = 0)
    (hst : p.status = "active") :
    incrementRow (incrementRow (incrementRow (incrementRow (incrementRow p))))
      = { p with failure_count := 5, status := "inactive" } := by
  obtain ⟨i, ip, pt, un, pw, pr, lu, st, fc⟩ := p
  simp only at hfc hst
  subst hfc
  subst hst
  rfl

/-- The duplicate check succeeds exactly when a stored row matches on a
non-NULL ip and the port. -/
theorem proxyExists_iff (ps : List Proxy) (v : String) (n : Int) :
    proxyExists ps (some v) n = true ↔ ∃ p ∈ ps, p.ip = some v ∧ p.port = n := by
  unfold proxyExists
  rw [List.any_eq_true]
  constructor
  · rintro ⟨p, hp, hm⟩
    cases hip : p.ip with
    | none => rw [hip] at hm; simp at hm
    | some w =>
      rw [hip] at hm
      simp only [Bool.and_eq_true, beq_iff_eq] at hm
      exact ⟨p, hp, by rw [hip, hm.1], hm.2⟩
  · rintro ⟨p, hp, hip, hpt⟩
    refine ⟨p, hp, ?_⟩
    rw [hip, hpt]
    simp

/-- A batch containing a record whose port does not parse makes the record
loop raise. -/
theorem load_aux_bad (enc : String → String) :
    ∀ (rows : List ProxyRow) (ps : List Proxy),
      (∃ r ∈ rows, parsePort r.port = none) →
      load_proxies_aux enc ps rows = none := by
  intro rows
  induction rows with
  | nil => rintro ps ⟨r, hr, _⟩; simp at hr
  | cons r0 rest ih =>
    rintro ps ⟨r, hr, hbad⟩
    rcases List.mem_cons.mp hr with rfl | hr2
    · simp [load_proxies_aux, hbad]
    · cases hp0 : parsePort r0.port with
      | none => simp [load_proxies_aux, hp0]
      | some n0 =>
        simp only [load_proxies_aux, hp0]
        by_cases hex : proxyExists ps r0.ip n0
        · rw [if_pos hex]
          exact ih _ ⟨r, hr2, hbad⟩
        · rw [if_neg hex]
          exact ih _ ⟨r, hr2, hbad⟩

/-- A batch whose every record has a parseable port is processed to the end. -/
theorem load_aux_good (enc : String → String) :
    ∀ (rows : List ProxyRow) (ps : List Proxy),
      (∀ r ∈ rows, ∃ n, parsePort r.port = some n) →
      ∃ t, load_proxies_aux enc ps rows = some t := by
  intro rows
  induction rows with
  | nil => exact fun ps _ => ⟨ps, rfl⟩
  | cons r0 rest ih =>
    intro ps hgood
    obtain ⟨n0, hn0⟩ := hgood r0 (List.mem_cons_self r0 rest)
    have hrest : ∀ r ∈ rest, ∃ n, parsePort r.port = some n :=
      fun r hr => hgood r (List.mem_cons_of_mem r0 hr)
    simp only [load_proxies_aux, hn0]
    by_cases hex : proxyExists ps r0.ip n0
    · rw [if_pos hex]; exact ih ps hrest
    · rw [if_neg hex]; exact ih _ hrest

/-- The record loop only inserts rows: every previously stored proxy is still
stored afterwards. -/
theorem load_aux_mono (enc : String → String) :
    ∀ (rows : List ProxyRow) (ps t : List Proxy),
      load_proxies_aux enc ps rows = some t → ∀ p ∈ ps, p ∈ t := by
  intro rows
  induction rows with
  | nil =>
    intro ps t h p hp
    simp only [load_proxies_aux] at h
    obtain rfl := Option.some.inj h
    exact hp
  | cons r0 rest ih =>
    intro ps t h p hp
    cases hp0 : parsePort r0.port with
    | none =>
      simp only [load_proxies_aux, hp0] at h
      exact Option.noConfusion h
    | some n0 =>
      simp only [load_proxies_aux, hp0] at h
      by_cases hex : proxyExists ps r0.ip n0
      · rw [if_pos hex] at h
        exact ih ps t h p hp
      · rw [if_neg hex] at h
        exact ih _ t h p (List.mem_append_left _ hp)

/-- After a successful batch, every record of the batch has a stored row
matching its ip and parsed port. -/
theorem load_aux_covers (enc : String → String) :
    ∀ (rows : List ProxyRow) (ps t : List Proxy),
      load_proxies_aux enc ps rows = some t →
      ∀ r ∈ rows, ∀ (v : String) (n : Int), r.ip = some v →
        parsePort r.port = some n →
        ∃ p ∈ t, p.ip = some v ∧ p.port = n := by
  intro rows
  induction rows with
  | nil => rintro ps t h r hr; simp at hr
  | cons r0 rest ih =>
    intro ps t h r hr v n hip hpt
    rcases List.mem_cons.mp hr with rfl | hr2
    · simp only [load_proxies_aux, hpt] at h
      by_cases hex : proxyExists ps r.ip n
      · rw [if_pos hex] at h
        rw [hip] at hex
        obtain ⟨p, hp, hpv, hpn⟩ := (proxyExists_iff ps v n).mp hex
        exact ⟨p, load_aux_mono enc rest ps t h p hp, hpv, hpn⟩
      · rw [if_neg hex] at h
        refine ⟨newProxyRow enc ps r n, ?_, hip, rfl⟩
        exact load_aux_mono enc rest _ t h _
          (List.mem_append_right ps (List.mem_singleton.mpr rfl))
    · cases hp0 : parsePort r0.port with
      | none =>
        simp only [load_proxies_aux, hp0] at h
        exact Option.noConfusion h
      | some n0 =>
        simp only [load_proxies_aux, hp0] at h
        by_cases hex : proxyExists ps r0.ip n0
        · rw [if_pos hex] at h
          exact ih ps t h r hr2 v n hip hpt
        · rw [if_neg hex] at h
          exact ih _ t h r hr2 v n hip hpt

/-- When every record of the batch already has a matching stored row, the
loop skips every record and the table is unchanged. -/
theorem load_aux_skip_all (enc : String → String) :
    ∀ (rows : List ProxyRow) (ps : List Proxy),
      (∀ r ∈ rows, ∃ (v : String) (n : Int), r.ip = some v
        ∧ parsePort r.port = some n ∧ ∃ p ∈ ps, p.ip = some v ∧ p.port = n) →
      load_proxies_aux enc ps rows = some ps := by
  intro rows
  induction rows with
  | nil => intro ps _; rfl
  | cons r0 rest ih =>
    intro ps hall
    obtain ⟨v, n, hip, hpt, hmatch⟩ := hall r0 (List.mem_cons_self r0 rest)
    have hex : proxyExists ps r0.ip n = true := by
      rw [hip]
      exact (proxyExists_iff ps v n).mpr hmatch
    simp only [load_proxies_aux, hpt]
    rw [if_pos hex]
    exact ih ps (fun r hr => hall r (List.mem_cons_of_mem r0 hr))

/-- Unfolding equation of the record loop at a record whose port parses. -/
theorem load_aux_cons (enc : String → String) (ps : List Proxy) (r : ProxyRow)
    (rest : List ProxyRow) (n : Int) (h : parsePort r.port = some n) :
    load_proxies_aux enc ps (r :: rest)
      = if proxyExists ps r.ip n then load_proxies_aux enc ps rest
        else load_proxies_aux enc (insertProxy enc ps r n) rest := by
  simp only [load_proxies_aux, h]

end ProxyManager

/-- `get_next_proxy` never touches the activity log. -/
theorem get_next_proxy_snd_activity_log (s : DBState) (now : String) :
    (ProxyManager.get_next_proxy s now).2.activity_log = s.activity_log := by
  cases hsort : List.insertionSort proxyLe (get_available_proxies s.proxies) with
  | nil => simp [ProxyManager.get_next_proxy, hsort]
  | cons hd tl => simp [ProxyManager.get_next_proxy, hsort]

namespace AccountManager

/-- Appending one account whose password decrypts cleanly extends a
successful export by exactly its row. -/
theorem exportLoop_snoc (c : Cipher) (l : List Account) (a : Account)
    (recs : List ExportRecord) (pw : String)
    (hl : exportLoop c l = Except.ok recs)
    (ha : decrypt c a.password_encrypted = Except.ok pw) :
    exportLoop c (l ++ [a]) = Except.ok (recs ++ [exportRow a pw]) := by
  induction l generalizing recs with
  | nil =>
    simp only [exportLoop] at hl
    obtain rfl := Except.ok.inj hl
    simp [exportLoop, ha, Except.map]
  | cons x xs ih =>
    simp only [List.cons_append, exportLoop] at hl ⊢
    cases hx : decrypt c x.password_encrypted with
    | error e =>
      simp only [hx] at hl
      cases hl
    | ok pwx =>
      simp only [hx] at hl ⊢
      cases hxs : exportLoop c xs with
      | error e =>
        simp only [hxs, Except.map] at hl
        cases hl
      | ok rs =>
        simp only [hxs, Except.map, Except.ok.injEq] at hl
        simp only [List.append_eq]
        rw [ih rs hxs]
        simp only [Except.map, Except.ok.injEq]
        rw [← hl]
        simp

end AccountManager

theorem cipherRev_roundtrip (t : String) :
    cipherRev.dec (cipherRev.enc t) = Except.ok t := by
  cases t with
  | mk l => simp [cipherRev]

/-!
The claims, in order, each settled by one theorem (with its witness or
counterexample where applicable).
-/

/-- **C1.** For every pool state, `get_next_proxy` never returns a proxy whose
status is `inactive` or whose failure count is at least 5: a returned proxy
always has status `active` and failure count below 5; when some stored proxy
has status `active` and failure count below 5 a proxy is returned, and when no
stored proxy qualifies the call returns `none`. -/
theorem C1_acquire_next_only_available (s : DBState) (now : String) :
    (∀ p, (get_next_proxy s now).1 = some p →
        p.status ≠ "inactive" ∧ p.status = "active" ∧ p.failure_count < 5)
    ∧ ((∃ p ∈ s.proxies, p.status = "active" ∧ p.failure_count < 5) →
        ∃ p, (get_next_proxy s now).1 = some p
          ∧ p.status = "active" ∧ p.failure_count < 5)
    ∧ ((¬ ∃ p ∈ s.proxies, p.status = "active" ∧ p.failure_count < 5) →
        (get_next_proxy s now).1 = none) := by
  cases hsort : List.insertionSort proxyLe (get_available_proxies s.proxies) with
  | nil =>
    have hempty : get_available_proxies s.proxies = [] := by
      have hperm := List.perm_insertionSort proxyLe (get_available_proxies s.proxies)
      rw [hsort] at hperm
      exact hperm.symm.eq_nil
    refine ⟨?_, ?_, ?_⟩
    · intro p hp
      simp [get_next_proxy, hsort] at hp
    · rintro ⟨p, hmem, hst, hfc⟩
      have : p ∈ get_available_proxies s.proxies :=
        mem_get_available.mpr ⟨hmem, hst, hfc⟩
      rw [hempty] at this
      simp at this
    · intro _
      simp [get_next_proxy, hsort]
  | cons hd tl =>
    have hmin := sort_head_min _ hd tl hsort
    have hhd := mem_get_available.mp hmin.1
    refine ⟨?_, ?_, ?_⟩
    · intro p hp
      simp [get_next_proxy, hsort] at hp
      subst hp
      refine ⟨?_, hhd.2.1, hhd.2.2⟩
      rw [hhd.2.1]
      decide
    · intro _
      exact ⟨hd, by simp [get_next_proxy, hsort], hhd.2.1, hhd.2.2⟩
    · intro hno
      exact absurd ⟨hd, hhd.1, hhd.2.1, hhd.2.2⟩ hno

/-- Witness for C1 at the concrete two-proxy pool. -/
theorem C1_witness :
    pEpoch.status = "active" ∧ pEpoch.failure_count < 5
    ∧ ∃ p, (get_next_proxy poolP1P2 "2025-06-02T00:00:00").1 = some p
        ∧ p.status = "active" ∧ p.failure_count < 5 :=
  ⟨by decide, by decide,
   (C1_acquire_next_only_available poolP1P2 "2025-06-02T00:00:00").2.1
     ⟨pEpoch, by decide, by decide, by decide⟩⟩

/-- **C2.** Starting from failure count 0 and status `active`, five
consecutive `_increment_failure_count` calls on the same resource with no
intervening reset leave it with failure count 5 and status `inactive`; and in
general each call increments the matching row's counter by exactly one and
yields status `inactive` exactly when the post-increment counter reaches the
threshold 5 (or the row was already `inactive`, in which case the `CASE`
keeps it). -/
theorem C2_five_failures_deactivate (p q : Proxy)
    (hfc : p.failure_count = 0) (hst : p.status = "active") :
    increment_failure_count (increment_failure_count (increment_failure_count
        (increment_failure_count (increment_failure_count [p] p.id) p.id) p.id) p.id) p.id
      = [{ p with failure_count := 5, status := "inactive" }]
    ∧ (incrementRow q).failure_count = q.failure_count + 1
    ∧ ((incrementRow q).status = "inactive" ↔
        5 ≤ q.failure_count + 1 ∨ q.status = "inactive")
    ∧ increment_failure_count [q] q.id = [incrementRow q] := by
  refine ⟨?_, rfl, ?_, increment_single q q.id rfl⟩
  · have hid1 : (incrementRow p).id = p.id := rfl
    have hid2 : (incrementRow (incrementRow p)).id = p.id := rfl
    have hid3 : (incrementRow (incrementRow (incrementRow p))).id = p.id := rfl
    have hid4 : (incrementRow (incrementRow (incrementRow (incrementRow p)))).id = p.id := rfl
    rw [increment_single p p.id rfl, increment_single _ p.id hid1,
        increment_single _ p.id hid2, increment_single _ p.id hid3,
        increment_single _ p.id hid4, incrementRow_five p hfc hst]
  · by_cases h5 : 5 ≤ q.failure_count + 1
    · simp [incrementRow, h5]
    · simp [incrementRow, h5]

/-- Witness for C2: the five-failure run on a concrete fresh proxy. -/
theorem C2_witness :
    increment_failure_count (increment_failure_count (increment_failure_count
        (increment_failure_count (increment_failure_count [pFresh] pFresh.id) pFresh.id)
        pFresh.id) pFresh.id) pFresh.id
      = [{ pFresh with failure_count := 5, status := "inactive" }] :=
  (C2_five_failures_deactivate pFresh pFresh (by decide) (by decide)).1

/-- **C3.** For every configuration with `minHours ≤ maxHours` and every
outcome of the random draws (a base drawn from `[min, max]` and a random
sign), the jittered next interval computed after a post job and after a
comment job is at least the configured minimum: the `max(min_hours, ...)`
clamp makes the minimum a hard lower bound. -/
theorem C3_interval_at_least_min (cfg : EngageConfig) (baseP signP baseC signC : ℚ)
    (hpm : cfg.post_min_hours ≤ cfg.post_max_hours)
    (hp1 : cfg.post_min_hours ≤ baseP) (hp2 : baseP ≤ cfg.post_max_hours)
    (hps : signP = 1 ∨ signP = -1)
    (hcm : cfg.comment_min_hours ≤ cfg.comment_max_hours)
    (hc1 : cfg.comment_min_hours ≤ baseC) (hc2 : baseC ≤ cfg.comment_max_hours)
    (hcs : signC = 1 ∨ signC = -1) :
    cfg.post_min_hours ≤ post_next_hours cfg baseP signP
    ∧ cfg.comment_min_hours ≤ comment_next_hours cfg baseC signC :=
  ⟨le_max_left _ _, le_max_left _ _⟩

/-- Witness for C3 at the default configuration, with the post base drawn at
20 h (sign +1) and the comment base at 10 h (sign −1). -/
theorem C3_witness :
    defaultEngageConfig.post_min_hours ≤ post_next_hours defaultEngageConfig 20 1
    ∧ defaultEngageConfig.comment_min_hours
        ≤ comment_next_hours defaultEngageConfig 10 (-1) :=
  C3_interval_at_least_min defaultEngageConfig 20 1 10 (-1)
    (by norm_num [defaultEngageConfig]) (by norm_num [defaultEngageConfig])
    (by norm_num [defaultEngageConfig]) (Or.inl rfl)
    (by norm_num [defaultEngageConfig]) (by norm_num [defaultEngageConfig])
    (by norm_num [defaultEngageConfig]) (Or.inr rfl)

/-- **C4 (counterexample).** The claim says a job whose account exists but is
merely inactive is skipped, the scheduler checking both existence and status
`active` before acting.  On the code, `get_account_details` selects by
username only and `_create_post_job` never consults `account_status`: at
hour 10 (inside the 8–23 window) the job of the `suspended` account `alice`
proceeds all the way — it acquires the proxy, logs in, submits, appends a
`success` activity record, and bumps the account's post counter — instead of
being skipped. -/
theorem C4_counterexample :
    acctSuspended.account_status ≠ "active"
    ∧ create_post_job cipherId defaultEngageConfig pool4 1 "alice" 10
        "2025-06-02T10:00:00" true (some "pid1") "AskReddit" 20 1
      = Except.ok
          (JobReturn.nextHours (post_next_hours defaultEngageConfig 20 1),
           { accounts := [{ acctSuspended with
                            last_post_date := some "2025-06-02T10:00:00",
                            total_posts := 1 }],
             proxies := [{ pFresh with last_used := some "2025-06-02T10:00:00" }],
             activity_log := [{ account_id := 1, activity_type := "post",
                                activity_date := "2025-06-02T10:00:00",
                                subreddit := "AskReddit", post_id := some "pid1",
                                comment_id := none, status := "success",
                                details := none }] }) :=
  ⟨by decide, rfl⟩

/-- **C4 (amended).** When a job fires: if the bound account no longer exists
the job returns `schedule.CancelJob` (cancelled, state untouched); if the
current hour is outside the activity window the job is skipped and remains
scheduled (state untouched).  But the scheduler checks only account
existence — not status — before acting: a job whose account exists with a
non-`active` status passes both checks and proceeds to act (account status
is filtered only at schedule-setup time). -/
theorem C4_amended_fire_checks (c : Cipher) (cfg : EngageConfig) (s : DBState)
    (accountId : Nat) (username : String) (hour : Nat) (now : String)
    (loginOk : Bool) (postId : Option String) (subreddit : String)
    (base sign : ℚ) :
    (get_account_details c s username = Except.ok none →
      create_post_job c cfg s accountId username hour now loginOk postId subreddit base sign
        = Except.ok (JobReturn.cancelJob, s))
    ∧ (∀ d, get_account_details c s username = Except.ok (some d) →
        is_within_activity_hours cfg hour = false →
        create_post_job c cfg s accountId username hour now loginOk postId subreddit base sign
          = Except.ok (JobReturn.skippedOutsideHours, s))
    ∧ (∀ d, get_account_details c s username = Except.ok (some d) →
        d.account_status ≠ "active" →
        is_within_activity_hours cfg hour = true →
        ∃ r s2,
          create_post_job c cfg s accountId username hour now loginOk postId subreddit base sign
            = Except.ok (r, s2)
          ∧ r ≠ JobReturn.cancelJob ∧ r ≠ JobReturn.skippedOutsideHours) := by
  refine ⟨?_, ?_, ?_⟩
  · intro h
    simp [create_post_job, h]
  · intro d h hw
    simp [create_post_job, h, hw]
  · intro d h _ hw
    cases hgp : ProxyManager.get_next_proxy s now with
    | mk o s1 =>
      cases o with
      | none =>
        refine ⟨JobReturn.noProxy, s1, by simp [create_post_job, h, hw, hgp], ?_, ?_⟩
        · intro hcon; cases hcon
        · intro hcon; cases hcon
      | some p =>
        cases loginOk with
        | false =>
          refine ⟨JobReturn.loginFailed, s1, by simp [create_post_job, h, hw, hgp], ?_, ?_⟩
          · intro hcon; cases hcon
          · intro hcon; cases hcon
        | true =>
          cases postId with
          | none =>
            refine ⟨JobReturn.nextHours (post_next_hours cfg base sign), s1,
                    by simp [create_post_job, h, hw, hgp], ?_, ?_⟩
            · intro hcon; cases hcon
            · intro hcon; cases hcon
          | some pid =>
            refine ⟨JobReturn.nextHours (post_next_hours cfg base sign),
                    record_post_success
                      (log_activity s1 accountId "post" subreddit (some pid) none
                        "success" now) accountId now,
                    by simp [create_post_job, h, hw, hgp], ?_, ?_⟩
            · intro hcon; cases hcon
            · intro hcon; cases hcon

/-- Witness for the amended C4: at the concrete suspended-account state the
cancellation branch, the off-hours skip branch (hour 2), and the
proceeds-despite-inactive-status branch are all exercised. -/
theorem C4_witness :
    create_post_job cipherId defaultEngageConfig pool4 1 "nosuch" 10
        "2025-06-02T10:00:00" true (some "pid1") "AskReddit" 20 1
      = Except.ok (JobReturn.cancelJob, pool4)
    ∧ create_post_job cipherId defaultEngageConfig pool4 1 "alice" 2
        "2025-06-02T02:00:00" true (some "pid1") "AskReddit" 20 1
      = Except.ok (JobReturn.skippedOutsideHours, pool4)
    ∧ ∃ r s2,
        create_post_job cipherId defaultEngageConfig pool4 1 "alice" 10
            "2025-06-02T10:00:00" true (some "pid1") "AskReddit" 20 1
          = Except.ok (r, s2)
        ∧ r ≠ JobReturn.cancelJob ∧ r ≠ JobReturn.skippedOutsideHours :=
  ⟨(C4_amended_fire_checks cipherId defaultEngageConfig pool4 1 "nosuch" 10
      "2025-06-02T10:00:00" true (some "pid1") "AskReddit" 20 1).1 rfl,
   (C4_amended_fire_checks cipherId defaultEngageConfig pool4 1 "alice" 2
      "2025-06-02T02:00:00" true (some "pid1") "AskReddit" 20 1).2.1
     aliceDetails rfl (by decide),
   (C4_amended_fire_checks cipherId defaultEngageConfig pool4 1 "alice" 10
      "2025-06-02T10:00:00" true (some "pid1") "AskReddit" 20 1).2.2
     aliceDetails rfl (by decide) (by decide)⟩

/-- **C5.** Among available resources, `get_next_proxy` returns one whose
sort key — the `last_used` timestamp with `NULL` read as the epoch string
`1970-01-01` — is lexicographically least (a never-used resource is thus
preferred over any resource used since the epoch), and the post-state stamps
exactly that proxy's `last_used` to now. -/
theorem C5_lru_selection (s : DBState) (now : String) (p : Proxy)
    (h : (get_next_proxy s now).1 = some p) :
    p ∈ get_available_proxies s.proxies
    ∧ (∀ q ∈ get_available_proxies s.proxies, proxyLe p q)
    ∧ (get_next_proxy s now).2
        = { s with proxies := stamp_last_used s.proxies p.id now } := by
  cases hsort : List.insertionSort proxyLe (get_available_proxies s.proxies) with
  | nil => simp [get_next_proxy, hsort] at h
  | cons hd tl =>
    have hhd : hd = p := by simpa [get_next_proxy, hsort] using h
    subst hhd
    have hmin := sort_head_min _ hd tl hsort
    exact ⟨hmin.1, hmin.2, by simp [get_next_proxy, hsort]⟩

/-- Witness for C5: with P1 last used at the epoch and P2 last used recently,
`get_next_proxy` returns P1 and stamps P1's `last_used`. -/
theorem C5_witness :
    (get_next_proxy poolP1P2 "2025-06-02T00:00:00").1 = some pEpoch
    ∧ pEpoch ∈ get_available_proxies poolP1P2.proxies
    ∧ (∀ q ∈ get_available_proxies poolP1P2.proxies, proxyLe pEpoch q)
    ∧ (get_next_proxy poolP1P2 "2025-06-02T00:00:00").2
        = { poolP1P2 with
            proxies := stamp_last_used poolP1P2.proxies pEpoch.id "2025-06-02T00:00:00" } := by
  have h : (get_next_proxy poolP1P2 "2025-06-02T00:00:00").1 = some pEpoch := by decide
  exact ⟨h, C5_lru_selection poolP1P2 "2025-06-02T00:00:00" pEpoch h⟩

/-- **C6 (counterexample).** The claim says records fail independently — a
malformed record aborts only itself and every well-formed record of the set
is still imported.  On the code, the single `try/except` around the whole
loop rolls the transaction back: loading the batch `[rowGood, rowBad]` into
an empty table stores nothing at all, even though `rowGood` alone imports
fine. -/
theorem C6_counterexample :
    ProxyManager.parsePort rowGood.port = some 8080
    ∧ ProxyManager.parsePort rowBad.port = none
    ∧ ProxyManager.load_proxies (fun t => t) [] [rowGood, rowBad] = []
    ∧ ProxyManager.load_proxies (fun t => t) [] [rowGood]
        = [{ id := 1, ip := some "10.0.0.1", port := 8080, username := none,
             password_encrypted := none, protocol := "http", last_used := none,
             status := "active", failure_count := 0 }] := by
  refine ⟨by decide, by decide, by decide, by decide⟩

/-- **C6 (amended).** Records do **not** fail independently: a malformed
record (unparseable port) raises, the `except` branch rolls the transaction
back, and the whole batch is discarded — the stored table is left exactly as
before the call, dropping even its well-formed records.  Only a batch whose
every record parses is committed. -/
theorem C6_malformed_record_aborts_batch (enc : String → String)
    (s : List Proxy) (rows : List ProxyManager.ProxyRow)
    (hbad : ∃ r ∈ rows, ProxyManager.parsePort r.port = none) :
    ProxyManager.load_proxies enc s rows = s := by
  rw [ProxyManager.load_proxies, ProxyManager.load_aux_bad enc rows s hbad]
  rfl

/-- Witness for the amended C6: the mixed batch leaves the empty table
empty. -/
theorem C6_witness :
    ProxyManager.load_proxies (fun t => t) [] [rowGood, rowBad] = [] :=
  C6_malformed_record_aborts_batch (fun t => t) [] [rowGood, rowBad]
    ⟨rowBad, by decide, by decide⟩

open ProxyManager in
/-- **C7.** `load_proxies` is idempotent on the host+port key.  First
conjunct: re-loading a record set whose every record carries a host and a
parseable port on top of a state that already imported it changes nothing.
Second conjunct: loading one record twice in a single batch, when no stored
row matches its host+port, stores exactly one row for that host+port. -/
theorem C7_load_idempotent :
    (∀ (enc : String → String) (s : List Proxy) (rows : List ProxyRow),
      (∀ r ∈ rows, (∃ v, r.ip = some v) ∧ ∃ n, parsePort r.port = some n) →
      load_proxies enc (load_proxies enc s rows) rows = load_proxies enc s rows)
    ∧ (∀ (enc : String → String) (s : List Proxy) (r : ProxyRow)
        (v : String) (n : Int),
        r.ip = some v → parsePort r.port = some n →
        (¬ ∃ p ∈ s, p.ip = some v ∧ p.port = n) →
        ((load_proxies enc s [r, r]).filter
            (fun p => p.ip == some v && p.port == n)).length = 1) := by
  constructor
  · intro enc s rows hrows
    obtain ⟨t, ht⟩ := load_aux_good enc rows s (fun r hr => (hrows r hr).2)
    have hload1 : load_proxies enc s rows = t := by
      rw [load_proxies, ht]; rfl
    have hcov : ∀ r ∈ rows, ∃ (v : String) (n : Int), r.ip = some v
        ∧ parsePort r.port = some n ∧ ∃ p ∈ t, p.ip = some v ∧ p.port = n := by
      intro r hr
      obtain ⟨⟨v, hv⟩, n, hn⟩ := hrows r hr
      exact ⟨v, n, hv, hn, load_aux_covers enc rows s t ht r hr v n hv hn⟩
    rw [hload1, load_proxies, load_aux_skip_all enc rows t hcov]
    rfl
  · intro enc s r v n hip hpt hno
    have hex1 : ¬ (proxyExists s r.ip n = true) := by
      rw [hip]
      exact fun hc => hno ((proxyExists_iff s v n).mp hc)
    have hex2 : proxyExists (insertProxy enc s r n) r.ip n = true := by
      rw [hip]
      refine (proxyExists_iff _ v n).mpr
        ⟨newProxyRow enc s r n,
         List.mem_append_right s (List.mem_singleton.mpr rfl), hip, rfl⟩
    have haux : load_proxies enc s [r, r] = insertProxy enc s r n := by
      rw [load_proxies, load_aux_cons enc s r [r] n hpt, if_neg hex1,
          load_aux_cons enc (insertProxy enc s r n) r [] n hpt, if_pos hex2]
      rfl
    rw [haux, insertProxy, List.filter_append]
    have hfs : s.filter (fun p => p.ip == some v && p.port == n) = [] := by
      rw [List.filter_eq_nil_iff]
      intro p hp hc
      simp only [Bool.and_eq_true, beq_iff_eq] at hc
      exact hno ⟨p, hp, hc.1, hc.2⟩
    rw [hfs]
    have hnp : ((newProxyRow enc s r n).ip == some v
        && (newProxyRow enc s r n).port == n) = true := by
      simp only [Bool.and_eq_true, beq_iff_eq]
      exact ⟨hip, rfl⟩
    simp [hnp]

/-- Witness for C7: double-loading the single well-formed record into the
empty table, within one batch and across two calls. -/
theorem C7_witness :
    ProxyManager.load_proxies (fun t => t)
        (ProxyManager.load_proxies (fun t => t) [] [rowGood]) [rowGood]
      = ProxyManager.load_proxies (fun t => t) [] [rowGood]
    ∧ ((ProxyManager.load_proxies (fun t => t) [] [rowGood, rowGood]).filter
        (fun p => p.ip == some "10.0.0.1" && p.port == 8080)).length = 1 :=
  ⟨C7_load_idempotent.1 (fun t => t) [] [rowGood]
     (by
       intro r hr
       rw [List.mem_singleton.mp hr]
       exact ⟨⟨"10.0.0.1", rfl⟩, 8080, by decide⟩),
   C7_load_idempotent.2 (fun t => t) [] rowGood "10.0.0.1" 8080 rfl (by decide)
     (by simp)⟩


/-- **C8 (counterexample).** The claim says any exception raised during job
execution is caught, a failure Activity Record is written, and the exception
never propagates out of the job.  `_create_post_job` has no `try` block: when
credential decryption raises `InvalidToken` inside `get_account_details`, the
exception propagates out of the job unchanged — and through
`schedule.run_pending()`, aborting the sweep before the next job runs — and
no Activity Record of any kind is written. -/
theorem C8_counterexample :
    create_post_job cipherFail defaultEngageConfig pool8 2 "bob" 10
        "2025-06-02T10:00:00" true (some "pid2") "news" 20 1
      = Except.error "InvalidToken"
    ∧ run_pending
        [fun s => create_post_job cipherFail defaultEngageConfig s 2 "bob" 10
            "2025-06-02T10:00:00" true (some "pid2") "news" 20 1,
         fun s => Except.ok (JobReturn.skippedOutsideHours, s)]
        pool8
      = Except.error "InvalidToken" :=
  ⟨rfl, rfl⟩

/-- **C8 (amended).** Exceptions during action execution are not caught by
the job: an exception raised while fetching the account details (credential
decryption) propagates out of `_create_post_job` with the same error, and an
erroring job aborts `run_pending` before any later job runs.  No failure
Activity Record exists: whenever the job completes without an exception, the
activity log is either unchanged or extended by exactly one record, and that
record has status `success`. -/
theorem C8_amended_exception_propagates (c : Cipher) (cfg : EngageConfig)
    (s : DBState) (accountId : Nat) (username : String) (hour : Nat)
    (now : String) (loginOk : Bool) (postId : Option String)
    (subreddit : String) (base sign : ℚ) :
    (∀ e, get_account_details c s username = Except.error e →
      create_post_job c cfg s accountId username hour now loginOk postId subreddit base sign
        = Except.error e)
    ∧ (∀ (j : DBState → Except String (JobReturn × DBState))
        (rest : List (DBState → Except String (JobReturn × DBState)))
        (st : DBState) (e : String),
        j st = Except.error e → run_pending (j :: rest) st = Except.error e)
    ∧ (∀ r s2,
        create_post_job c cfg s accountId username hour now loginOk postId subreddit base sign
          = Except.ok (r, s2) →
        s2.activity_log = s.activity_log
        ∨ ∃ pid, postId = some pid ∧
            s2.activity_log = s.activity_log ++
              [{ account_id := accountId, activity_type := "post",
                 activity_date := now, subreddit := subreddit,
                 post_id := some pid, comment_id := none,
                 status := "success", details := none }]) := by
  refine ⟨?_, ?_, ?_⟩
  · intro e he
    simp [create_post_job, he]
  · intro j rest st e hj
    simp [run_pending, hj]
  · intro r s2 h
    cases hga : get_account_details c s username with
    | error e => rw [create_post_job, hga] at h; cases h
    | ok od =>
      cases od with
      | none =>
        rw [create_post_job, hga] at h
        simp only [Except.ok.injEq, Prod.mk.injEq] at h
        exact Or.inl (by rw [← h.2])
      | some d =>
        rw [create_post_job, hga] at h
        by_cases hw : is_within_activity_hours cfg hour
        · rw [if_neg (by simpa using hw)] at h
          cases hgp : ProxyManager.get_next_proxy s now with
          | mk o s1 =>
            have hlog : s1.activity_log = s.activity_log := by
              have : (ProxyManager.get_next_proxy s now).2 = s1 := by rw [hgp]
              rw [← this, get_next_proxy_snd_activity_log]
            rw [hgp] at h
            cases o with
            | none =>
              simp only [Except.ok.injEq, Prod.mk.injEq] at h
              exact Or.inl (by rw [← h.2, hlog])
            | some p =>
              cases loginOk with
              | false =>
                simp only [Bool.false_eq_true, not_false_eq_true, if_true] at h
                simp only [Except.ok.injEq, Prod.mk.injEq] at h
                exact Or.inl (by rw [← h.2, hlog])
              | true =>
                simp only [not_true, if_false] at h
                cases postId with
                | none =>
                  simp only [Except.ok.injEq, Prod.mk.injEq] at h
                  exact Or.inl (by rw [← h.2, hlog])
                | some pid =>
                  simp only [Except.ok.injEq, Prod.mk.injEq] at h
                  refine Or.inr ⟨pid, rfl, ?_⟩
                  rw [← h.2]
                  simp [record_post_success, log_activity, hlog]
        · rw [if_pos (by simpa using hw)] at h
          simp only [Except.ok.injEq, Prod.mk.injEq] at h
          exact Or.inl (by rw [← h.2])

/-- Witness for the amended C8 at the concrete failing-cipher state. -/
theorem C8_witness :
    create_post_job cipherFail defaultEngageConfig pool8 2 "bob" 10
        "2025-06-02T10:00:00" false none "news" 20 1
      = Except.error "InvalidToken"
    ∧ run_pending
        [fun st => create_post_job cipherFail defaultEngageConfig st 2 "bob" 10
            "2025-06-02T10:00:00" false none "news" 20 1]
        pool8
      = Except.error "InvalidToken" :=
  ⟨(C8_amended_exception_propagates cipherFail defaultEngageConfig pool8 2 "bob" 10
      "2025-06-02T10:00:00" false none "news" 20 1).1 "InvalidToken" rfl,
   (C8_amended_exception_propagates cipherFail defaultEngageConfig pool8 2 "bob" 10
      "2025-06-02T10:00:00" false none "news" 20 1).2.1
     (fun st => create_post_job cipherFail defaultEngageConfig st 2 "bob" 10
        "2025-06-02T10:00:00" false none "news" 20 1)
     [] pool8 "InvalidToken" rfl⟩

/-- **C9.** Account secret material round-trips: under any cipher whose
decryption inverts its encryption (the same Fernet key on both sides, as the
code uses the one `cipher_suite` for `_save_account` and `export_accounts`),
exporting after saving an account yields exactly the prior export plus the
new account's record, whose `password` field is the identical plaintext. -/
theorem C9_password_roundtrip (c : Cipher)
    (hc : ∀ t, c.dec (c.enc t) = Except.ok t)
    (s : DBState) (username password email now : String) (proxyId : Nat)
    (ua : String) (recs : List ExportRecord)
    (h : export_accounts c s = Except.ok recs) :
    export_accounts c (save_account c s username password email now proxyId ua)
      = Except.ok (recs ++
          [exportRow (newAccount c s.accounts username password email now proxyId ua)
            password]) := by
  unfold export_accounts save_account
  exact exportLoop_snoc c s.accounts _ recs password h (hc password)

/-- Witness for C9: saving the password `s3cret` under the reversing cipher
and exporting returns the identical plaintext `s3cret`. -/
theorem C9_witness :
    (∀ t, cipherRev.dec (cipherRev.enc t) = Except.ok t)
    ∧ export_accounts cipherRev
        (save_account cipherRev emptyDB "alice" "s3cret" "alice@example.com"
          "2024-01-01T00:00:00" 7 "ua")
      = Except.ok
          [exportRow
            (newAccount cipherRev [] "alice" "s3cret" "alice@example.com"
              "2024-01-01T00:00:00" 7 "ua") "s3cret"] :=
  ⟨cipherRev_roundtrip,
   C9_password_roundtrip cipherRev cipherRev_roundtrip emptyDB "alice" "s3cret"
     "alice@example.com" "2024-01-01T00:00:00" 7 "ua" [] rfl⟩

/-- **C10.** Frame condition of `get_next_proxy`: on success the only state
change is the returned proxy's `last_used` stamp — the accounts table, the
activity log, and every field of every proxy other than the returned one's
`last_used` are unchanged — and on failure the state is entirely unchanged. -/
theorem C10_acquire_next_frame (s : DBState) (now : String) :
    ((get_next_proxy s now).1 = none → (get_next_proxy s now).2 = s)
    ∧ ∀ p, (get_next_proxy s now).1 = some p →
        (get_next_proxy s now).2.accounts = s.accounts
        ∧ (get_next_proxy s now).2.activity_log = s.activity_log
        ∧ ∀ (i : Nat) (q q2 : Proxy), s.proxies[i]? = some q →
            (get_next_proxy s now).2.proxies[i]? = some q2 →
              q2.id = q.id ∧ q2.ip = q.ip ∧ q2.port = q.port
              ∧ q2.username = q.username
              ∧ q2.password_encrypted = q.password_encrypted
              ∧ q2.protocol = q.protocol ∧ q2.status = q.status
              ∧ q2.failure_count = q.failure_count
              ∧ (q.id ≠ p.id → q2 = q)
              ∧ (q.id = p.id → q2 = { q with last_used := some now }) := by
  cases hsort : List.insertionSort proxyLe (get_available_proxies s.proxies) with
  | nil =>
    refine ⟨fun _ => by simp [get_next_proxy, hsort], ?_⟩
    intro p hp
    simp [get_next_proxy, hsort] at hp
  | cons hd tl =>
    refine ⟨fun hnone => by simp [get_next_proxy, hsort] at hnone, ?_⟩
    intro p hp
    have hhd : hd = p := by simpa [get_next_proxy, hsort] using hp
    subst hhd
    refine ⟨by simp [get_next_proxy, hsort], by simp [get_next_proxy, hsort], ?_⟩
    intro i q q2 hq hq2
    have hsnd : (get_next_proxy s now).2.proxies = stamp_last_used s.proxies hd.id now := by
      simp [get_next_proxy, hsort]
    rw [hsnd] at hq2
    have hmap : (stamp_last_used s.proxies hd.id now)[i]?
        = (s.proxies[i]?).map
            (fun (q3 : Proxy) => if q3.id = hd.id then { q3 with last_used := some now } else q3) := by
      simp [stamp_last_used, List.getElem?_map]
    rw [hmap, hq] at hq2
    rw [Option.map_some'] at hq2
    by_cases hid : q.id = hd.id
    · rw [if_pos hid] at hq2
      obtain rfl := Option.some.inj hq2
      exact ⟨rfl, rfl, rfl, rfl, rfl, rfl, rfl, rfl,
             fun hne => absurd hid hne, fun _ => rfl⟩
    · rw [if_neg hid] at hq2
      obtain rfl := Option.some.inj hq2
      exact ⟨rfl, rfl, rfl, rfl, rfl, rfl, rfl, rfl,
             fun _ => rfl, fun heq => absurd heq hid⟩

/-- Witness for C10 at the concrete two-proxy pool: the accounts table and
activity log are untouched and the non-returned proxy P2 is left exactly as
it was. -/
theorem C10_witness :
    (get_next_proxy poolP1P2 "2025-06-02T00:00:00").2.accounts = poolP1P2.accounts
    ∧ (get_next_proxy poolP1P2 "2025-06-02T00:00:00").2.activity_log
        = poolP1P2.activity_log
    ∧ ∀ q2, (get_next_proxy poolP1P2 "2025-06-02T00:00:00").2.proxies[1]? = some q2 →
        q2 = pNow := by
  have h := (C10_acquire_next_frame poolP1P2 "2025-06-02T00:00:00").2 pEpoch (by decide)
  refine ⟨h.1, h.2.1, ?_⟩
  intro q2 hq2
  have h3 := h.2.2 1 pNow q2 (by decide) hq2
  exact h3.2.2.2.2.2.2.2.2.1 (by decide)
